import Mathlib

/-!
Verification of the classconnect chat-client variants.

Two source files carry the behavior the claims are about:
* `src/client/index.tsx` — embedded in namespace `Client`;
* `unnamed/part_001`     — embedded in namespace `Variant`.

Conventions of the shallow embedding:
* A JavaScript string field that may be `undefined` is modelled as `""`
  unless the source distinguishes `undefined` from `""` (the `??` operator
  does, `||` and `===` comparisons between two missing fields do not in a
  way that changes any property below); where the distinction matters
  (`status`, participant `id`) the field is an `Option String`.
* React `setState` updaters are pure functions `List _ → List _`; the
  component state is a record of the message list and the participant list.
* `socket.send(JSON.stringify(frame))` is modelled by returning the frame
  alongside the new state; `nanoid(12)` by a caller-supplied fresh id.
* `console.warn`, unread counters, browser notifications and the
  `pendingRef` bookkeeping map touch no rendered list and are not modelled.
-/

namespace CC

/-- One entry of a `participants` snapshot frame, as parsed from JSON.
`status` and `id` keep the absent/empty distinction (`??` in the source
reacts to absence only). -/
structure RawPart where
  user : String
  status : Option String
  lastSeen : String
  id : Option String
deriving DecidableEq, Repr

/-- An inbound event after `JSON.parse`: the four recognized frame types,
`unknown` for a parsed object with an unrecognized `type`, and `malformed`
for payloads that fail to parse or are not objects. -/
inductive Frame where
  | add (id content user role : String)
  | update (id content user role : String)
  | presence (user : String) (status : Option String) (lastSeen : String) (id : Option String)
  | participants (ps : List RawPart)
  | unknown
  | malformed
deriving DecidableEq, Repr

end CC

namespace Client

/-- A chat message as stored by `src/client/index.tsx` (fields of the shared
`ChatMessage` type that the file reads or writes). -/
structure ChatMessage where
  id : String
  content : String
  user : String
  role : String
deriving DecidableEq, Repr

/-- A participant entry of `src/client/index.tsx` (`type Participant`);
`status` is always set through the `|| "online"` default, `id` is stored
as received and may be absent. -/
structure Participant where
  user : String
  status : String
  lastSeen : String
  id : Option String
deriving DecidableEq, Repr

/-- The component state the claims are about: `messages` and
`participants`. -/
structure State where
  messages : List ChatMessage
  participants : List Participant
deriving DecidableEq, Repr

/-- `msg.status || "online"`: a missing or empty (falsy) status becomes
`"online"`. -/
def orOnline : Option String → String
  | none => "online"
  | some s => if s == "" then "online" else s

/-- `addMessage` (index.tsx:365-371): reject a message without id
(`if (!m || !m.id) return`), keep the list unchanged when the id is already
present, otherwise append. -/
def addMessage (prev : List ChatMessage) (m : ChatMessage) : List ChatMessage :=
  if m.id == "" then prev
  else if prev.any (fun x => x.id == m.id) then prev
  else prev ++ [m]

/-- `updateMessage` (index.tsx:373-375): `prev.map((x) => (x.id === m.id ? m : x))`. -/
def updateMessage (prev : List ChatMessage) (m : ChatMessage) : List ChatMessage :=
  prev.map (fun x => if x.id == m.id then m else x)

/-- The presence branch of `handleIncoming`: find the first participant with
the frame's user name; append when absent, otherwise replace at that index
(the spread `{ ...copy[found], ...p }` overwrites every field because the
literal `p` defines all four keys). -/
def presenceUpsert (prev : List Participant) (p : Participant) : List Participant :=
  match prev.findIdx? (fun x => x.user == p.user) with
  | none => prev ++ [p]
  | some i => prev.set i p

/-- Normalization applied to each entry of a `participants` snapshot
(index.tsx:411-417). -/
def normalizePart (p : CC.RawPart) : Participant :=
  { user := p.user, status := orOnline p.status, lastSeen := p.lastSeen, id := p.id }

/-- `handleIncoming` (index.tsx:379-427) as a step function on the state.
A parse failure is caught (`malformed`), a non-object or unrecognized type
falls through with no state change. -/
def handleIncoming (st : State) (f : CC.Frame) : State :=
  match f with
  | .add id content user role =>
      { st with messages := addMessage st.messages ⟨id, content, user, role⟩ }
  | .update id content user role =>
      { st with messages := updateMessage st.messages ⟨id, content, user, role⟩ }
  | .presence user status lastSeen id =>
      { st with participants :=
          presenceUpsert st.participants ⟨user, orOnline status, lastSeen, id⟩ }
  | .participants ps => { st with participants := ps.map normalizePart }
  | .unknown => st
  | .malformed => st

/-- `visibleMessages` (index.tsx:377): `messages.filter((m) => m.role !== "system")`. -/
def visibleMessages (msgs : List ChatMessage) : List ChatMessage :=
  msgs.filter (fun m => m.role != "system")

/-- JavaScript `String.prototype.trim`: strip leading and trailing
whitespace (written with structural recursion so that concrete inputs
evaluate). -/
def trimWS (s : String) : String :=
  ⟨((s.data.dropWhile Char.isWhitespace).reverse.dropWhile Char.isWhitespace).reverse⟩

/-- `sendChat` (index.tsx:479-498): ignore blank input
(`if (!content.trim()) return`), otherwise build the message with a fresh
id, role `"user"` and the current name, add it optimistically through
`addMessage`, and transmit `{ type: "add", ...chatMessage }`. -/
def sendChat (st : State) (name freshId content : String) :
    State × Option CC.Frame :=
  if trimWS content == "" then (st, none)
  else
    ({ st with messages := addMessage st.messages ⟨freshId, content, name, "user"⟩ },
     some (.add freshId content name "user"))

/-- The identifiers of a message list. -/
def msgIds (l : List ChatMessage) : List String := l.map (fun m => m.id)

end Client

namespace Variant

/-- A chat message as stored by `unnamed/part_001`; optimistic sends carry
`pending: true`, reconciled/remote messages `pending: false`. -/
structure VMessage where
  id : String
  content : String
  user : String
  role : String
  pending : Bool
deriving DecidableEq, Repr

/-- A participant entry of `unnamed/part_001` (`type Participant`): `id` is
optional (a snapshot stores `p.id` as received; a presence frame stores
`data.id ?? data.user`). -/
structure VParticipant where
  user : String
  id : Option String
  status : String
  lastSeen : String
deriving DecidableEq, Repr

/-- The part_001 component state the claims are about. -/
structure VState where
  messages : List VMessage
  participants : List VParticipant
deriving DecidableEq, Repr

/-- The candidate indices of reconcile's fallback scan
(`for (let i = prev.length - 1; i >= Math.max(0, prev.length - 40); i--)`):
the last forty positions, highest first. -/
def scanWindow (len : Nat) : List Nat :=
  ((List.range len).drop (len - 40)).reverse

/-- The loop body's test: position `i` holds a pending message by the same
user with the same content. -/
def matchesPending (prev : List VMessage) (user content : String) (i : Nat) : Bool :=
  match prev[i]? with
  | some m => m.pending && m.user == user && m.content == content
  | none => false

/-- The first index (scanning backwards over the window) of a pending
optimistic message matching the frame's user and content. -/
def findPendingIdx (prev : List VMessage) (user content : String) : Option Nat :=
  (scanWindow prev.length).find? (matchesPending prev user content)

/-- `reconcile` (part_001:317-341). By-id match: `copy[byId] =
{ ...copy[byId], ...msg, pending: false }` — the frame's `id`, `content`,
`user`, `role` overwrite the stored ones (the id is unchanged, it matched).
Otherwise a pending optimistic message matching by user and content inside
the 40-entry window is overwritten the same way — including its id, which
becomes the frame's id. Otherwise append. -/
def reconcile (prev : List VMessage) (id content user role : String) : List VMessage :=
  match prev.findIdx? (fun m => m.id == id) with
  | some i => prev.set i ⟨id, content, user, role, false⟩
  | none =>
    match findPendingIdx prev user content with
    | some i => prev.set i ⟨id, content, user, role, false⟩
    | none => prev ++ [⟨id, content, user, role, false⟩]

/-- The presence branch of `onMessage` (part_001:349-358): same
first-match-by-user upsert as index.tsx. -/
def vPresenceUpsert (prev : List VParticipant) (p : VParticipant) : List VParticipant :=
  match prev.findIdx? (fun x => x.user == p.user) with
  | none => prev ++ [p]
  | some i => prev.set i p

/-- Normalization of a snapshot entry (part_001:362-363): `id` is kept as
received, `status` defaults through `?? "online"` (absence only). -/
def vNormalizePart (p : CC.RawPart) : VParticipant :=
  { user := p.user, id := p.id, status := p.status.getD "online", lastSeen := p.lastSeen }

/-- `onMessage` (part_001:344-383) as a step function. Note part_001 has no
branch for `update` frames: they fall through unchanged, like unknown
types. Mention/unread side effects of the `add` branch touch no list. -/
def onMessage (st : VState) (f : CC.Frame) : VState :=
  match f with
  | .presence user status lastSeen id =>
      { st with participants :=
          vPresenceUpsert st.participants ⟨user, some (id.getD user), status.getD "online", lastSeen⟩ }
  | .participants ps => { st with participants := ps.map vNormalizePart }
  | .add id content user role =>
      { st with messages := reconcile st.messages id content user role }
  | .update _ _ _ _ => st
  | .unknown => st
  | .malformed => st

/-- The text path of `send` (part_001:448-466): empty text is rejected
(`if (!opts.text && !opts.file) return`), otherwise the payload
`{ type: "add", id: nanoid(12), content, user: name, role: "user" }` is
transmitted and appended locally with `pending: true`. -/
def send (st : VState) (name freshId text : String) : VState × Option CC.Frame :=
  if text == "" then (st, none)
  else
    ({ st with messages := st.messages ++ [⟨freshId, text, name, "user", true⟩] },
     some (.add freshId text name "user"))

/-- The identifiers of a message list. -/
def vMsgIds (l : List VMessage) : List String := l.map (fun m => m.id)

/-- Processing a sequence of inbound events in arrival order. -/
def processFrames (st : VState) (fs : List CC.Frame) : VState :=
  fs.foldl onMessage st

end Variant

namespace Client

/-- Processing a sequence of inbound events in arrival order. -/
def processFrames (st : State) (fs : List CC.Frame) : State :=
  fs.foldl handleIncoming st

end Client

namespace CC

/-- An `add` frame from an (id, content, user, role) tuple; used to
quantify over sequences consisting of `add` frames only. -/
def addFrame (q : String × String × String × String) : Frame :=
  Frame.add q.1 q.2.1 q.2.2.1 q.2.2.2

end CC

/-! ### General list lemmas used by the invariant proofs -/

/-- Replacing any position of a duplicate-free list by a value that does
not occur in it keeps the list duplicate-free. -/
theorem nodup_set_of_not_mem {α : Type} {l : List α} {a : α}
    (h : l.Nodup) (ha : a ∉ l) : ∀ i, (l.set i a).Nodup := by
  induction l with
  | nil => intro i; simp
  | cons b tl ih =>
    intro i
    rcases List.nodup_cons.mp h with ⟨hb, htl⟩
    have ha' : a ∉ tl := fun hm => ha (List.mem_cons_of_mem _ hm)
    cases i with
    | zero =>
      rw [List.set_cons_zero]
      exact List.nodup_cons.mpr ⟨ha', htl⟩
    | succ n =>
      rw [List.set_cons_succ]
      refine List.nodup_cons.mpr ⟨?_, ih htl ha' n⟩
      intro hmem
      rcases List.mem_or_eq_of_mem_set hmem with h1 | h2
      · exact hb h1
      · cases h2; exact ha (List.mem_cons_self _ _)

/-- Writing back the value already stored at a position leaves the list
unchanged. -/
theorem set_getElem?_eq_self {α : Type} {l : List α} :
    ∀ {i : Nat} {a : α}, l[i]? = some a → l.set i a = l := by
  induction l with
  | nil => intro i a h; simp at h
  | cons b tl ih =>
    intro i a h
    cases i with
    | zero =>
      simp only [List.getElem?_cons_zero, Option.some.injEq] at h
      rw [List.set_cons_zero, h]
    | succ n =>
      simp only [List.getElem?_cons_succ] at h
      rw [List.set_cons_succ, ih h]

/-- Replacing a position by a value on which the predicate agrees with the
old entry keeps `countP` unchanged. -/
theorem countP_set_congr {α : Type} {pred : α → Bool} :
    ∀ {l : List α} {i : Nat} (hi : i < l.length) {a : α},
      pred (l.get ⟨i, hi⟩) = pred a →
      (l.set i a).countP pred = l.countP pred := by
  intro l
  induction l with
  | nil => intro i hi; simp at hi
  | cons b tl ih =>
    intro i hi a h
    cases i with
    | zero =>
      simp only [List.get] at h
      rw [List.set_cons_zero, List.countP_cons, List.countP_cons, h]
    | succ n =>
      simp only [List.get] at h
      rw [List.set_cons_succ, List.countP_cons, List.countP_cons,
        ih (Nat.lt_of_succ_lt_succ hi) h]

/-- An entry at a position other than the overwritten one stays a member
after `set`. -/
theorem getElem_mem_set_of_ne {α : Type} {l : List α} {i j : Nat}
    (hj : j < l.length) (a : α) (hij : i ≠ j) : l.get ⟨j, hj⟩ ∈ l.set i a := by
  have hl : j < (l.set i a).length := by
    rw [List.length_set]; exact hj
  have heq : (l.set i a).get ⟨j, hl⟩ = l.get ⟨j, hj⟩ := by
    simp [List.getElem_set_ne hij]
  exact heq ▸ List.get_mem _ _ _

/-! ### Characterizations of the message-list updaters -/

/-- `addMessage` either leaves the list unchanged or appends a message
whose id was not present. -/
theorem addMessage_eq (prev : List Client.ChatMessage) (m : Client.ChatMessage) :
    Client.addMessage prev m = prev
    ∨ (m.id ∉ Client.msgIds prev ∧ Client.addMessage prev m = prev ++ [m]) := by
  by_cases h1 : (m.id == "") = true
  · left; simp [Client.addMessage, h1]
  · by_cases h2 : prev.any (fun x => x.id == m.id) = true
    · left; simp [Client.addMessage, h1, h2]
    · right
      refine ⟨?_, by simp [Client.addMessage, h1, h2]⟩
      intro hmem
      rcases List.mem_map.mp hmem with ⟨x, hx, hid⟩
      exact h2 (List.any_eq_true.mpr ⟨x, hx, by simp [hid]⟩)

/-- `updateMessage` never changes the identifier stored at any position. -/
theorem msgIds_updateMessage (prev : List Client.ChatMessage) (m : Client.ChatMessage) :
    Client.msgIds (Client.updateMessage prev m) = Client.msgIds prev := by
  unfold Client.msgIds Client.updateMessage
  rw [List.map_map]
  apply List.map_congr_left
  intro x hx
  by_cases h : x.id = m.id
  · simp [Function.comp, h]
  · simp [Function.comp, h]

/-- The id list after `reconcile`: unchanged (by-id match), or — when the
frame's id is new — one position overwritten by the new id (pending
content-match), or the new id appended. -/
theorem vMsgIds_reconcile (prev : List Variant.VMessage) (id content user role : String) :
    (Variant.vMsgIds (Variant.reconcile prev id content user role) = Variant.vMsgIds prev)
    ∨ (id ∉ Variant.vMsgIds prev ∧
        ∃ i, ∃ hi : i < prev.length, (prev.get ⟨i, hi⟩).pending = true ∧
          Variant.vMsgIds (Variant.reconcile prev id content user role)
            = (Variant.vMsgIds prev).set i id)
    ∨ (id ∉ Variant.vMsgIds prev ∧
        Variant.vMsgIds (Variant.reconcile prev id content user role)
          = Variant.vMsgIds prev ++ [id]) := by
  unfold Variant.reconcile
  cases hf : prev.findIdx? (fun m => m.id == id) with
  | some i =>
    left
    rcases List.findIdx?_eq_some_iff_getElem.mp hf with ⟨hi, hp, _⟩
    have hid : (prev.get ⟨i, hi⟩).id = id := by
      have := beq_iff_eq.mp hp
      simpa using this
    show Variant.vMsgIds (prev.set i ⟨id, content, user, role, false⟩) = Variant.vMsgIds prev
    unfold Variant.vMsgIds
    rw [List.map_set]
    apply set_getElem?_eq_self
    rw [List.getElem?_map, List.getElem?_eq_getElem hi]
    simp only [Option.map_some']
    exact congrArg some (by simpa using hid)
  | none =>
    have hnot : id ∉ Variant.vMsgIds prev := by
      intro hmem
      rcases List.mem_map.mp hmem with ⟨x, hx, hxid⟩
      have := List.findIdx?_eq_none_iff.mp hf x hx
      simp [hxid] at this
    cases hp : Variant.findPendingIdx prev user content with
    | some i =>
      right; left
      have hpred : Variant.matchesPending prev user content i = true := List.find?_some hp
      unfold Variant.matchesPending at hpred
      cases hgi : prev[i]? with
      | none => rw [hgi] at hpred; simp at hpred
      | some m =>
        rw [hgi] at hpred
        rcases List.getElem?_eq_some_iff.mp hgi with ⟨hi, hgm⟩
        refine ⟨hnot, i, hi, ?_, ?_⟩
        · have : m.pending = true := by
            simp only [Bool.and_eq_true] at hpred
            exact hpred.1.1
          rw [← this]
          exact congrArg Variant.VMessage.pending (by simp [List.get_eq_getElem, hgm])
        · show Variant.vMsgIds (prev.set i ⟨id, content, user, role, false⟩)
            = (Variant.vMsgIds prev).set i id
          unfold Variant.vMsgIds
          rw [List.map_set]
    | none =>
      right; right
      refine ⟨hnot, ?_⟩
      show Variant.vMsgIds (prev ++ [⟨id, content, user, role, false⟩])
        = Variant.vMsgIds prev ++ [id]
      simp [Variant.vMsgIds]

/-! ### Preservation of id-uniqueness by the incoming-frame handlers -/

/-- One `handleIncoming` step preserves uniqueness of message ids. -/
theorem nodup_msgIds_handleIncoming (st : Client.State) (f : CC.Frame)
    (h : (Client.msgIds st.messages).Nodup) :
    (Client.msgIds (Client.handleIncoming st f).messages).Nodup := by
  cases f with
  | add id content user role =>
    show (Client.msgIds (Client.addMessage st.messages ⟨id, content, user, role⟩)).Nodup
    rcases addMessage_eq st.messages ⟨id, content, user, role⟩ with h1 | ⟨h2, h3⟩
    · rw [h1]; exact h
    · rw [h3]
      have he : Client.msgIds (st.messages ++ [⟨id, content, user, role⟩])
          = Client.msgIds st.messages ++ [id] := by simp [Client.msgIds]
      rw [he, List.nodup_append]
      refine ⟨h, List.nodup_singleton _, ?_⟩
      intro a ha hb
      simp only [List.mem_singleton] at hb
      subst hb
      exact h2 ha
  | update id content user role =>
    show (Client.msgIds (Client.updateMessage st.messages ⟨id, content, user, role⟩)).Nodup
    rw [msgIds_updateMessage]
    exact h
  | presence user status lastSeen id => exact h
  | participants ps => exact h
  | unknown => exact h
  | malformed => exact h

/-- One `onMessage` step preserves uniqueness of message ids. -/
theorem nodup_vMsgIds_onMessage (st : Variant.VState) (f : CC.Frame)
    (h : (Variant.vMsgIds st.messages).Nodup) :
    (Variant.vMsgIds (Variant.onMessage st f).messages).Nodup := by
  cases f with
  | add id content user role =>
    show (Variant.vMsgIds (Variant.reconcile st.messages id content user role)).Nodup
    rcases vMsgIds_reconcile st.messages id content user role with
      h1 | ⟨hno, i, hi, _, h3⟩ | ⟨hno, h3⟩
    · rw [h1]; exact h
    · rw [h3]; exact nodup_set_of_not_mem h hno i
    · rw [h3, List.nodup_append]
      refine ⟨h, List.nodup_singleton _, ?_⟩
      intro a ha hb
      simp only [List.mem_singleton] at hb
      subst hb
      exact hno ha
  | update id content user role => exact h
  | presence user status lastSeen id => exact h
  | participants ps => exact h
  | unknown => exact h
  | malformed => exact h

/-- Uniqueness of message ids is preserved along any frame sequence
(index.tsx). -/
theorem nodup_msgIds_processFrames (fs : List CC.Frame) :
    ∀ st : Client.State, (Client.msgIds st.messages).Nodup →
      (Client.msgIds (Client.processFrames st fs).messages).Nodup := by
  induction fs with
  | nil => intro st h; exact h
  | cons f fs ih =>
    intro st h
    exact ih (Client.handleIncoming st f) (nodup_msgIds_handleIncoming st f h)

/-- Uniqueness of message ids is preserved along any frame sequence
(part_001). -/
theorem nodup_vMsgIds_processFrames (fs : List CC.Frame) :
    ∀ st : Variant.VState, (Variant.vMsgIds st.messages).Nodup →
      (Variant.vMsgIds (Variant.processFrames st fs).messages).Nodup := by
  induction fs with
  | nil => intro st h; exact h
  | cons f fs ih =>
    intro st h
    exact ih (Variant.onMessage st f) (nodup_vMsgIds_onMessage st f h)

/-- Filtering out system messages keeps ids duplicate-free. -/
theorem nodup_msgIds_visible (msgs : List Client.ChatMessage)
    (h : (Client.msgIds msgs).Nodup) :
    (Client.msgIds (Client.visibleMessages msgs)).Nodup :=
  List.Nodup.sublist
    (List.Sublist.map _ (List.filter_sublist msgs)) h

/-! ### Optimistic send and echo absorption -/

/-- After `addMessage` of a message with a non-empty id, some entry carries
that id. -/
theorem addMessage_mem_self (prev : List Client.ChatMessage) (m : Client.ChatMessage)
    (hm : ¬ (m.id == "") = true) :
    (Client.addMessage prev m).any (fun x => x.id == m.id) = true := by
  unfold Client.addMessage
  rw [if_neg hm]
  by_cases h2 : prev.any (fun x => x.id == m.id) = true
  · rw [if_pos h2]; exact h2
  · rw [if_neg h2]; simp

/-- Adding the same message twice is the same as adding it once. -/
theorem addMessage_idem (prev : List Client.ChatMessage) (m : Client.ChatMessage) :
    Client.addMessage (Client.addMessage prev m) m = Client.addMessage prev m := by
  by_cases hid : (m.id == "") = true
  · simp [Client.addMessage, hid]
  · have h := addMessage_mem_self prev m hid
    generalize Client.addMessage prev m = X at h ⊢
    simp [Client.addMessage, hid, h]

/-- `addMessage` of a message with a fresh, non-empty id appends it. -/
theorem addMessage_append_of_fresh (prev : List Client.ChatMessage)
    (m : Client.ChatMessage) (hid : ¬ m.id = "")
    (hfresh : m.id ∉ Client.msgIds prev) :
    Client.addMessage prev m = prev ++ [m] := by
  have hany : ¬ prev.any (fun x => x.id == m.id) = true := by
    intro hany
    rcases List.any_eq_true.mp hany with ⟨x, hx, hxid⟩
    exact hfresh (List.mem_map.mpr ⟨x, hx, by simpa using hxid⟩)
  unfold Client.addMessage
  rw [if_neg (by simpa using hid), if_neg hany]

/-- The echo of a just-sent message is absorbed: the state after the echo
is the state after the send (index.tsx). -/
theorem echo_absorbed_client (st : Client.State) (name freshId content : String)
    (hc : ¬ Client.trimWS content = "") :
    Client.handleIncoming (Client.sendChat st name freshId content).1
        (CC.Frame.add freshId content name "user")
      = (Client.sendChat st name freshId content).1 := by
  unfold Client.sendChat
  rw [if_neg (by simpa using hc)]
  show Client.handleIncoming
    ⟨Client.addMessage st.messages ⟨freshId, content, name, "user"⟩, st.participants⟩ _ = _
  unfold Client.handleIncoming
  simp only [Client.State.mk.injEq, and_true]
  exact addMessage_idem st.messages ⟨freshId, content, name, "user"⟩

/-- When some entry already carries the frame's id, `reconcile` rewrites in
place and the length is unchanged. -/
theorem reconcile_length_of_mem (prev : List Variant.VMessage)
    (id content user role : String) (h : ∃ x ∈ prev, x.id = id) :
    (Variant.reconcile prev id content user role).length = prev.length := by
  rcases h with ⟨x, hx, hxid⟩
  have hex : ∃ y, y ∈ prev ∧ ((fun m : Variant.VMessage => m.id == id) y) = true :=
    ⟨x, hx, by simp [hxid]⟩
  have hf := List.findIdx?_eq_some_of_exists hex
  unfold Variant.reconcile
  rw [hf]
  simp

/-! ### The claims -/

/-- C1: for every starting message list with unique identifiers and every
sequence of inbound `add` frames, the resulting visible message list (and
the full list) never contains two entries with the same identifier, in
both index.tsx and part_001. -/
theorem claim_C1_unique_ids_under_add_frames
    (adds : List (String × String × String × String))
    (st : Client.State) (hst : (Client.msgIds st.messages).Nodup)
    (vst : Variant.VState) (hvst : (Variant.vMsgIds vst.messages).Nodup) :
    (Client.msgIds (Client.visibleMessages
        (Client.processFrames st (adds.map CC.addFrame)).messages)).Nodup
    ∧ (Client.msgIds (Client.processFrames st (adds.map CC.addFrame)).messages).Nodup
    ∧ (Variant.vMsgIds (Variant.processFrames vst (adds.map CC.addFrame)).messages).Nodup := by
  have h1 := nodup_msgIds_processFrames (adds.map CC.addFrame) st hst
  exact ⟨nodup_msgIds_visible _ h1, h1, nodup_vMsgIds_processFrames (adds.map CC.addFrame) vst hvst⟩

/-- Witness for C1: duplicate delivery of the frame id `"m1"` from the
empty state. -/
theorem claim_C1_witness :
    (Client.msgIds (Client.visibleMessages
        (Client.processFrames ⟨[], []⟩
          ([("m1", "hi", "u", "user"), ("m1", "hi", "u", "user")].map CC.addFrame)).messages)).Nodup
    ∧ (Client.msgIds (Client.processFrames (⟨[], []⟩ : Client.State)
        ([("m1", "hi", "u", "user"), ("m1", "hi", "u", "user")].map CC.addFrame)).messages).Nodup
    ∧ (Variant.vMsgIds (Variant.processFrames (⟨[], []⟩ : Variant.VState)
        ([("m1", "hi", "u", "user"), ("m1", "hi", "u", "user")].map CC.addFrame)).messages).Nodup :=
  claim_C1_unique_ids_under_add_frames _ _ (by decide) _ (by decide)

/-- C2: a local send followed by the inbound echo of the same identifier
and content leaves the visible list length (and the full list length)
unchanged relative to the state after the send, in both variants. -/
theorem claim_C2_echo_confirmation_idempotent
    (st : Client.State) (name freshId content : String) (hc : ¬ Client.trimWS content = "")
    (vst : Variant.VState) (vname vfresh vtext : String) (hv : ¬ vtext = "") :
    ((Client.handleIncoming (Client.sendChat st name freshId content).1
        (CC.Frame.add freshId content name "user")).messages.length
      = (Client.sendChat st name freshId content).1.messages.length)
    ∧ ((Client.visibleMessages (Client.handleIncoming (Client.sendChat st name freshId content).1
        (CC.Frame.add freshId content name "user")).messages).length
      = (Client.visibleMessages (Client.sendChat st name freshId content).1.messages).length)
    ∧ ((Variant.onMessage (Variant.send vst vname vfresh vtext).1
        (CC.Frame.add vfresh vtext vname "user")).messages.length
      = (Variant.send vst vname vfresh vtext).1.messages.length) := by
  have habs := echo_absorbed_client st name freshId content hc
  refine ⟨by rw [habs], by rw [habs], ?_⟩
  unfold Variant.send
  rw [if_neg (by simpa using hv)]
  show (Variant.onMessage
      ⟨vst.messages ++ [⟨vfresh, vtext, vname, "user", true⟩], vst.participants⟩ _).messages.length = _
  unfold Variant.onMessage
  exact reconcile_length_of_mem _ _ _ _ _ ⟨⟨vfresh, vtext, vname, "user", true⟩, by simp, rfl⟩

/-- Witness for C2: sending `"hello"` from the empty state and receiving
its echo. -/
theorem claim_C2_witness :
    (¬ Client.trimWS "hello" = "")
    ∧ ((Client.handleIncoming (Client.sendChat ⟨[], []⟩ "bob" "id1" "hello").1
        (CC.Frame.add "id1" "hello" "bob" "user")).messages.length
      = (Client.sendChat (⟨[], []⟩ : Client.State) "bob" "id1" "hello").1.messages.length) :=
  ⟨by decide,
   (claim_C2_echo_confirmation_idempotent ⟨[], []⟩ "bob" "id1" "hello" (by decide)
      ⟨[], []⟩ "bob" "id2" "hey" (by decide)).1⟩

/-- C3: a submit with non-blank content appends the message with the fresh
id, the content, the current name and role `"user"`, and transmits an
`add` frame with exactly that id and content, in both variants. -/
theorem claim_C3_submit_appends_and_transmits
    (st : Client.State) (name freshId content : String)
    (hc : ¬ Client.trimWS content = "") (hid : ¬ freshId = "")
    (hfresh : freshId ∉ Client.msgIds st.messages)
    (vst : Variant.VState) (vname vfresh vtext : String) (hv : ¬ vtext = "") :
    Client.sendChat st name freshId content
      = ({ st with messages := st.messages ++ [⟨freshId, content, name, "user"⟩] },
         some (CC.Frame.add freshId content name "user"))
    ∧ Variant.send vst vname vfresh vtext
      = ({ vst with messages := vst.messages ++ [⟨vfresh, vtext, vname, "user", true⟩] },
         some (CC.Frame.add vfresh vtext vname "user")) := by
  constructor
  · unfold Client.sendChat
    rw [if_neg (by simpa using hc)]
    rw [addMessage_append_of_fresh st.messages ⟨freshId, content, name, "user"⟩ hid hfresh]
  · unfold Variant.send
    rw [if_neg (by simpa using hv)]

/-- Witness for C3: submitting `"hello"` with fresh id `"id1"` from the
empty state. -/
theorem claim_C3_witness :
    Client.sendChat ⟨[], []⟩ "bob" "id1" "hello"
      = ({ messages := [⟨"id1", "hello", "bob", "user"⟩], participants := [] },
         some (CC.Frame.add "id1" "hello" "bob" "user"))
    ∧ Variant.send ⟨[], []⟩ "bob" "id2" "hey"
      = ({ messages := [⟨"id2", "hey", "bob", "user", true⟩], participants := [] },
         some (CC.Frame.add "id2" "hey" "bob" "user")) :=
  claim_C3_submit_appends_and_transmits ⟨[], []⟩ "bob" "id1" "hello"
    (by decide) (by decide) (by decide) ⟨[], []⟩ "bob" "id2" "hey" (by decide)

/-- C4: a `participants` snapshot frame replaces the participant list with
exactly the normalized snapshot entries — nothing of the previous list
survives or is merged in — in both variants. -/
theorem claim_C4_snapshot_fully_replaces (st : Client.State) (vst : Variant.VState)
    (ps : List CC.RawPart) :
    (Client.handleIncoming st (CC.Frame.participants ps)).participants
        = ps.map Client.normalizePart
    ∧ (Variant.onMessage vst (CC.Frame.participants ps)).participants
        = ps.map Variant.vNormalizePart :=
  ⟨rfl, rfl⟩

/-! ### Presence upsert characterization -/

/-- No participant matches: the presence entry is appended (index.tsx). -/
theorem presenceUpsert_of_none (prev : List Client.Participant) (p : Client.Participant)
    (h : prev.findIdx? (fun x => x.user == p.user) = none) :
    Client.presenceUpsert prev p = prev ++ [p] := by
  unfold Client.presenceUpsert
  rw [h]

/-- A participant matches: the entry at the first matching index is
replaced (index.tsx). -/
theorem presenceUpsert_of_some (prev : List Client.Participant) (p : Client.Participant)
    (i : Nat) (h : prev.findIdx? (fun x => x.user == p.user) = some i) :
    Client.presenceUpsert prev p = prev.set i p := by
  unfold Client.presenceUpsert
  rw [h]

/-- No participant matches: the presence entry is appended (part_001). -/
theorem vPresenceUpsert_of_none (prev : List Variant.VParticipant) (p : Variant.VParticipant)
    (h : prev.findIdx? (fun x => x.user == p.user) = none) :
    Variant.vPresenceUpsert prev p = prev ++ [p] := by
  unfold Variant.vPresenceUpsert
  rw [h]

/-- A participant matches: the entry at the first matching index is
replaced (part_001). -/
theorem vPresenceUpsert_of_some (prev : List Variant.VParticipant) (p : Variant.VParticipant)
    (i : Nat) (h : prev.findIdx? (fun x => x.user == p.user) = some i) :
    Variant.vPresenceUpsert prev p = prev.set i p := by
  unfold Variant.vPresenceUpsert
  rw [h]

/-- C5: a `presence` frame for an unknown user appends a participant; for a
known user it overwrites the first entry with that user name in place,
keeping the length and the number of entries with that user name, in both
variants. -/
theorem claim_C5_presence_append_or_update
    (st : Client.State) (u : String) (s : Option String) (ls : String) (oid : Option String)
    (vst : Variant.VState) (vu : String) (vs : Option String) (vls : String)
    (vid : Option String) :
    ((∀ x ∈ st.participants, ¬ x.user = u) →
        (Client.handleIncoming st (CC.Frame.presence u s ls oid)).participants
          = st.participants ++ [⟨u, Client.orOnline s, ls, oid⟩])
    ∧ ((∃ x ∈ st.participants, x.user = u) →
        ((Client.handleIncoming st (CC.Frame.presence u s ls oid)).participants
            = st.participants.set (st.participants.findIdx (fun x => x.user == u))
                ⟨u, Client.orOnline s, ls, oid⟩
          ∧ (Client.handleIncoming st (CC.Frame.presence u s ls oid)).participants.length
              = st.participants.length
          ∧ (Client.handleIncoming st (CC.Frame.presence u s ls oid)).participants.countP
                (fun x => x.user == u)
              = st.participants.countP (fun x => x.user == u)))
    ∧ ((∀ x ∈ vst.participants, ¬ x.user = vu) →
        (Variant.onMessage vst (CC.Frame.presence vu vs vls vid)).participants
          = vst.participants ++ [⟨vu, some (vid.getD vu), vs.getD "online", vls⟩])
    ∧ ((∃ x ∈ vst.participants, x.user = vu) →
        ((Variant.onMessage vst (CC.Frame.presence vu vs vls vid)).participants
            = vst.participants.set (vst.participants.findIdx (fun x => x.user == vu))
                ⟨vu, some (vid.getD vu), vs.getD "online", vls⟩
          ∧ (Variant.onMessage vst (CC.Frame.presence vu vs vls vid)).participants.length
              = vst.participants.length
          ∧ (Variant.onMessage vst (CC.Frame.presence vu vs vls vid)).participants.countP
                (fun x => x.user == vu)
              = vst.participants.countP (fun x => x.user == vu))) := by
  refine ⟨?_, ?_, ?_, ?_⟩
  · intro h
    apply presenceUpsert_of_none
    rw [List.findIdx?_eq_none_iff]
    intro x hx
    simp [h x hx]
  · rintro ⟨x, hx, hxu⟩
    have hex : ∃ y, y ∈ st.participants ∧ ((fun z : Client.Participant => z.user == u) y) = true :=
      ⟨x, hx, by simp [hxu]⟩
    have hf := List.findIdx?_eq_some_of_exists hex
    have hset := presenceUpsert_of_some st.participants ⟨u, Client.orOnline s, ls, oid⟩ _ hf
    rcases List.findIdx?_eq_some_iff_getElem.mp hf with ⟨hi, hp, _⟩
    refine ⟨hset, ?_, ?_⟩
    · show (Client.presenceUpsert st.participants ⟨u, Client.orOnline s, ls, oid⟩).length = _
      rw [hset, List.length_set]
    · show (Client.presenceUpsert st.participants ⟨u, Client.orOnline s, ls, oid⟩).countP _ = _
      rw [hset]
      apply countP_set_congr hi
      simp only [List.get_eq_getElem]
      rw [hp]
      simp
  · intro h
    apply vPresenceUpsert_of_none
    rw [List.findIdx?_eq_none_iff]
    intro x hx
    simp [h x hx]
  · rintro ⟨x, hx, hxu⟩
    have hex : ∃ y, y ∈ vst.participants ∧ ((fun z : Variant.VParticipant => z.user == vu) y) = true :=
      ⟨x, hx, by simp [hxu]⟩
    have hf := List.findIdx?_eq_some_of_exists hex
    have hset := vPresenceUpsert_of_some vst.participants
      ⟨vu, some (vid.getD vu), vs.getD "online", vls⟩ _ hf
    rcases List.findIdx?_eq_some_iff_getElem.mp hf with ⟨hi, hp, _⟩
    refine ⟨hset, ?_, ?_⟩
    · show (Variant.vPresenceUpsert vst.participants _).length = _
      rw [hset, List.length_set]
    · show (Variant.vPresenceUpsert vst.participants _).countP _ = _
      rw [hset]
      apply countP_set_congr hi
      simp only [List.get_eq_getElem]
      rw [hp]
      simp

/-- Witness for C5: presence of the unknown user `"bob"` appends; presence
of the known user `"alice"` updates in place, in both variants. -/
theorem claim_C5_witness :
    ((Client.handleIncoming ⟨[], [⟨"alice", "online", "t0", none⟩]⟩
        (CC.Frame.presence "bob" none "t1" none)).participants
      = [⟨"alice", "online", "t0", none⟩] ++ [⟨"bob", Client.orOnline none, "t1", none⟩])
    ∧ ((Client.handleIncoming ⟨[], [⟨"alice", "online", "t0", none⟩]⟩
          (CC.Frame.presence "alice" (some "offline") "t2" none)).participants
        = [(⟨"alice", "online", "t0", none⟩ : Client.Participant)].set
            ([(⟨"alice", "online", "t0", none⟩ : Client.Participant)].findIdx
              (fun x => x.user == "alice"))
            ⟨"alice", Client.orOnline (some "offline"), "t2", none⟩
      ∧ (Client.handleIncoming ⟨[], [⟨"alice", "online", "t0", none⟩]⟩
          (CC.Frame.presence "alice" (some "offline") "t2" none)).participants.length
        = [(⟨"alice", "online", "t0", none⟩ : Client.Participant)].length
      ∧ (Client.handleIncoming ⟨[], [⟨"alice", "online", "t0", none⟩]⟩
          (CC.Frame.presence "alice" (some "offline") "t2" none)).participants.countP
            (fun x => x.user == "alice")
        = [(⟨"alice", "online", "t0", none⟩ : Client.Participant)].countP
            (fun x => x.user == "alice"))
    ∧ ((Variant.onMessage ⟨[], [⟨"alice", some "a1", "online", "t0"⟩]⟩
        (CC.Frame.presence "bob" none "t1" none)).participants
      = [⟨"alice", some "a1", "online", "t0"⟩]
          ++ [⟨"bob", some ((none : Option String).getD "bob"),
               (none : Option String).getD "online", "t1"⟩])
    ∧ ((Variant.onMessage ⟨[], [⟨"alice", some "a1", "online", "t0"⟩]⟩
          (CC.Frame.presence "alice" (some "offline") "t2" none)).participants
        = [(⟨"alice", some "a1", "online", "t0"⟩ : Variant.VParticipant)].set
            ([(⟨"alice", some "a1", "online", "t0"⟩ : Variant.VParticipant)].findIdx
              (fun x => x.user == "alice"))
            ⟨"alice", some ((none : Option String).getD "alice"),
             (some "offline").getD "online", "t2"⟩
      ∧ (Variant.onMessage ⟨[], [⟨"alice", some "a1", "online", "t0"⟩]⟩
          (CC.Frame.presence "alice" (some "offline") "t2" none)).participants.length
        = [(⟨"alice", some "a1", "online", "t0"⟩ : Variant.VParticipant)].length
      ∧ (Variant.onMessage ⟨[], [⟨"alice", some "a1", "online", "t0"⟩]⟩
          (CC.Frame.presence "alice" (some "offline") "t2" none)).participants.countP
            (fun x => x.user == "alice")
        = [(⟨"alice", some "a1", "online", "t0"⟩ : Variant.VParticipant)].countP
            (fun x => x.user == "alice")) :=
  ⟨(claim_C5_presence_append_or_update ⟨[], [⟨"alice", "online", "t0", none⟩]⟩
      "bob" none "t1" none ⟨[], []⟩ "bob" none "t1" none).1 (by decide),
   (claim_C5_presence_append_or_update ⟨[], [⟨"alice", "online", "t0", none⟩]⟩
      "alice" (some "offline") "t2" none ⟨[], []⟩ "bob" none "t1" none).2.1
     ⟨⟨"alice", "online", "t0", none⟩, by decide, rfl⟩,
   (claim_C5_presence_append_or_update ⟨[], []⟩ "bob" none "t1" none
      ⟨[], [⟨"alice", some "a1", "online", "t0"⟩]⟩ "bob" none "t1" none).2.2.1 (by decide),
   (claim_C5_presence_append_or_update ⟨[], []⟩ "bob" none "t1" none
      ⟨[], [⟨"alice", some "a1", "online", "t0"⟩]⟩ "alice" (some "offline") "t2" none).2.2.2
     ⟨⟨"alice", some "a1", "online", "t0"⟩, by decide, rfl⟩⟩

/-- C6 fails as stated: part_001's `onMessage` (cited as a source of the
claim) has no `update` branch, so an inbound `update` frame whose id
matches an existing message does not replace its content. -/
theorem claim_C6_counterexample :
    ((Variant.onMessage ⟨[⟨"m1", "old", "alice", "user", false⟩], []⟩
        (CC.Frame.update "m1" "new" "alice" "user")).messages.map
          (fun m => m.content) = ["old"])
    ∧ ¬ ((Variant.onMessage ⟨[⟨"m1", "old", "alice", "user", false⟩], []⟩
        (CC.Frame.update "m1" "new" "alice" "user")).messages.map
          (fun m => m.content) = ["new"]) :=
  ⟨rfl, by decide⟩

/-- C6 amended: in index.tsx an `update` frame keeps the list length,
replaces every message whose id matches the frame (content, user, role)
and leaves every other message unchanged; in part_001 an `update` frame
leaves the state entirely unchanged (no update branch exists). -/
theorem claim_C6_update_replaces_in_place
    (st : Client.State) (id c u r : String) (vst : Variant.VState) :
    ((Client.handleIncoming st (CC.Frame.update id c u r)).messages.length
        = st.messages.length)
    ∧ (∀ (k : Nat) (m : Client.ChatMessage), st.messages[k]? = some m → m.id = id →
        (Client.handleIncoming st (CC.Frame.update id c u r)).messages[k]?
          = some ⟨id, c, u, r⟩)
    ∧ (∀ (k : Nat) (m : Client.ChatMessage), st.messages[k]? = some m → ¬ m.id = id →
        (Client.handleIncoming st (CC.Frame.update id c u r)).messages[k]? = some m)
    ∧ Variant.onMessage vst (CC.Frame.update id c u r) = vst := by
  refine ⟨?_, ?_, ?_, rfl⟩
  · show (Client.updateMessage st.messages ⟨id, c, u, r⟩).length = _
    unfold Client.updateMessage
    exact List.length_map _ _
  · intro k m hk hid
    show (Client.updateMessage st.messages ⟨id, c, u, r⟩)[k]? = _
    unfold Client.updateMessage
    rw [List.getElem?_map, hk]
    simp [hid]
  · intro k m hk hid
    show (Client.updateMessage st.messages ⟨id, c, u, r⟩)[k]? = _
    unfold Client.updateMessage
    rw [List.getElem?_map, hk]
    simp [hid]

/-- Witness for C6 (amended): an update of `"m1"` rewrites the matching
message and keeps `"m2"` untouched. -/
theorem claim_C6_witness :
    ((Client.handleIncoming
        ⟨[⟨"m1", "old", "alice", "user"⟩, ⟨"m2", "x", "bob", "user"⟩], []⟩
        (CC.Frame.update "m1" "new" "carol" "user")).messages[0]?
      = some ⟨"m1", "new", "carol", "user"⟩)
    ∧ ((Client.handleIncoming
        ⟨[⟨"m1", "old", "alice", "user"⟩, ⟨"m2", "x", "bob", "user"⟩], []⟩
        (CC.Frame.update "m1" "new" "carol" "user")).messages[1]?
      = some ⟨"m2", "x", "bob", "user"⟩) :=
  ⟨(claim_C6_update_replaces_in_place
      ⟨[⟨"m1", "old", "alice", "user"⟩, ⟨"m2", "x", "bob", "user"⟩], []⟩
      "m1" "new" "carol" "user" ⟨[], []⟩).2.1 0 ⟨"m1", "old", "alice", "user"⟩ rfl rfl,
   (claim_C6_update_replaces_in_place
      ⟨[⟨"m1", "old", "alice", "user"⟩, ⟨"m2", "x", "bob", "user"⟩], []⟩
      "m1" "new" "carol" "user" ⟨[], []⟩).2.2.1 1 ⟨"m2", "x", "bob", "user"⟩ rfl (by decide)⟩

/-- C7: a malformed payload (parse failure or non-object) and an
unrecognized frame type leave the whole state — message list and
participant list — unchanged in both variants; the failure is only
logged. -/
theorem claim_C7_malformed_frames_ignored (st : Client.State) (vst : Variant.VState) :
    Client.handleIncoming st CC.Frame.malformed = st
    ∧ Client.handleIncoming st CC.Frame.unknown = st
    ∧ Variant.onMessage vst CC.Frame.malformed = vst
    ∧ Variant.onMessage vst CC.Frame.unknown = vst :=
  ⟨rfl, rfl, rfl, rfl⟩

/-- C8 fails as stated: part_001's `reconcile` (cited as a source of the
claim) matches an inbound `add` frame with a fresh id against a pending
optimistic message by user and content and overwrites it — the pending
message's identifier `"a"` is no longer present after the step. -/
theorem claim_C8_counterexample :
    ("a" ∈ Variant.vMsgIds
        ((⟨[⟨"a", "hi", "alice", "user", true⟩], []⟩ : Variant.VState)).messages)
    ∧ ("a" ∉ Variant.vMsgIds (Variant.onMessage ⟨[⟨"a", "hi", "alice", "user", true⟩], []⟩
        (CC.Frame.add "x" "hi" "alice" "user")).messages) :=
  ⟨by decide, by decide⟩

/-- C8 amended: no inbound frame removes a message entry — the list length
never decreases and, in index.tsx, every identifier present before the
step is still present after it; in part_001 every non-pending message's
identifier is still present, while a pending optimistic message's
identifier may be rewritten in place to the frame's identifier by the
content-match reconciliation. -/
theorem claim_C8_inbound_never_removes
    (st : Client.State) (vst : Variant.VState) (f : CC.Frame) :
    st.messages.length ≤ (Client.handleIncoming st f).messages.length
    ∧ (∀ x ∈ Client.msgIds st.messages,
        x ∈ Client.msgIds (Client.handleIncoming st f).messages)
    ∧ vst.messages.length ≤ (Variant.onMessage vst f).messages.length
    ∧ (∀ m ∈ vst.messages, m.pending = false →
        m.id ∈ Variant.vMsgIds (Variant.onMessage vst f).messages) := by
  have hlen : ∀ l : List Variant.VMessage, (Variant.vMsgIds l).length = l.length := by
    intro l; unfold Variant.vMsgIds; rw [List.length_map]
  refine ⟨?_, ?_, ?_, ?_⟩
  · cases f with
    | add id content user role =>
      show st.messages.length ≤ (Client.addMessage st.messages ⟨id, content, user, role⟩).length
      rcases addMessage_eq st.messages ⟨id, content, user, role⟩ with h1 | ⟨_, h3⟩
      · rw [h1]
      · rw [h3]; simp
    | update id content user role =>
      show st.messages.length ≤ (Client.updateMessage st.messages ⟨id, content, user, role⟩).length
      unfold Client.updateMessage
      rw [List.length_map]
    | presence user status lastSeen id => exact Nat.le_refl _
    | participants ps => exact Nat.le_refl _
    | unknown => exact Nat.le_refl _
    | malformed => exact Nat.le_refl _
  · intro x hx
    cases f with
    | add id content user role =>
      show x ∈ Client.msgIds (Client.addMessage st.messages ⟨id, content, user, role⟩)
      rcases addMessage_eq st.messages ⟨id, content, user, role⟩ with h1 | ⟨_, h3⟩
      · rw [h1]; exact hx
      · rw [h3]
        unfold Client.msgIds at hx ⊢
        rw [List.map_append]
        exact List.mem_append_left _ hx
    | update id content user role =>
      show x ∈ Client.msgIds (Client.updateMessage st.messages ⟨id, content, user, role⟩)
      rw [msgIds_updateMessage]
      exact hx
    | presence user status lastSeen id => exact hx
    | participants ps => exact hx
    | unknown => exact hx
    | malformed => exact hx
  · cases f with
    | add id content user role =>
      show vst.messages.length ≤ (Variant.reconcile vst.messages id content user role).length
      rcases vMsgIds_reconcile vst.messages id content user role with
        h1 | ⟨_, i, hi, _, h3⟩ | ⟨_, h3⟩
      · have := congrArg List.length h1
        rw [hlen, hlen] at this
        omega
      · have := congrArg List.length h3
        rw [hlen, List.length_set, hlen] at this
        omega
      · have := congrArg List.length h3
        rw [hlen, List.length_append, hlen] at this
        simp only [List.length_singleton] at this
        omega
    | update id content user role => exact Nat.le_refl _
    | presence user status lastSeen id => exact Nat.le_refl _
    | participants ps => exact Nat.le_refl _
    | unknown => exact Nat.le_refl _
    | malformed => exact Nat.le_refl _
  · intro m hm hpendF
    cases f with
    | add id content user role =>
      show m.id ∈ Variant.vMsgIds (Variant.reconcile vst.messages id content user role)
      rcases vMsgIds_reconcile vst.messages id content user role with
        h1 | ⟨hno, i, hi, hpend, h3⟩ | ⟨hno, h3⟩
      · rw [h1]
        exact List.mem_map.mpr ⟨m, hm, rfl⟩
      · rw [h3]
        rcases List.mem_iff_getElem.mp hm with ⟨j, hj, hjm⟩
        have hij : i ≠ j := by
          intro hij'
          subst hij'
          have hip : (vst.messages.get ⟨i, hi⟩).pending = true := hpend
          rw [List.get_eq_getElem, hjm, hpendF] at hip
          exact Bool.false_ne_true hip
        have hj' : j < (Variant.vMsgIds vst.messages).length := by
          rw [hlen]; exact hj
        have hmsg : (Variant.vMsgIds vst.messages).get ⟨j, hj'⟩ = m.id := by
          simp [Variant.vMsgIds, List.get_eq_getElem, hjm]
        have hmem := getElem_mem_set_of_ne hj' id hij
        rw [hmsg] at hmem
        exact hmem
      · rw [h3]
        exact List.mem_append_left _ (List.mem_map.mpr ⟨m, hm, rfl⟩)
    | update id content user role => exact List.mem_map.mpr ⟨m, hm, rfl⟩
    | presence user status lastSeen id => exact List.mem_map.mpr ⟨m, hm, rfl⟩
    | participants ps => exact List.mem_map.mpr ⟨m, hm, rfl⟩
    | unknown => exact List.mem_map.mpr ⟨m, hm, rfl⟩
    | malformed => exact List.mem_map.mpr ⟨m, hm, rfl⟩

/-- Witness for C8 (amended): a fresh `add` frame preserves the stored
identifier `"m1"` in index.tsx and the non-pending identifier `"a"` in
part_001. -/
theorem claim_C8_witness :
    ((⟨[⟨"m1", "hi", "u", "user"⟩], []⟩ : Client.State).messages.length
        ≤ (Client.handleIncoming ⟨[⟨"m1", "hi", "u", "user"⟩], []⟩
            (CC.Frame.add "m2" "yo" "v" "user")).messages.length)
    ∧ ("m1" ∈ Client.msgIds (Client.handleIncoming ⟨[⟨"m1", "hi", "u", "user"⟩], []⟩
        (CC.Frame.add "m2" "yo" "v" "user")).messages)
    ∧ ("a" ∈ Variant.vMsgIds (Variant.onMessage ⟨[⟨"a", "hi", "alice", "user", false⟩], []⟩
        (CC.Frame.add "x" "hi" "alice" "user")).messages) :=
  ⟨(claim_C8_inbound_never_removes ⟨[⟨"m1", "hi", "u", "user"⟩], []⟩ ⟨[], []⟩
      (CC.Frame.add "m2" "yo" "v" "user")).1,
   (claim_C8_inbound_never_removes ⟨[⟨"m1", "hi", "u", "user"⟩], []⟩ ⟨[], []⟩
      (CC.Frame.add "m2" "yo" "v" "user")).2.1 "m1" (by decide),
   (claim_C8_inbound_never_removes ⟨[], []⟩ ⟨[⟨"a", "hi", "alice", "user", false⟩], []⟩
      (CC.Frame.add "x" "hi" "alice" "user")).2.2.2 ⟨"a", "hi", "alice", "user", false⟩
      (by decide) rfl⟩

/-- C9 fails as stated: part_001 defaults the status with `??`, which
reacts to absence only — a present-but-falsy empty-string status is
stored as `""`, not as `"online"`. -/
theorem claim_C9_counterexample :
    ((Variant.onMessage ⟨[], []⟩
        (CC.Frame.presence "alice" (some "") "t1" none)).participants
      = [⟨"alice", some "alice", "", "t1"⟩])
    ∧ ¬ ("" = "online") :=
  ⟨rfl, by decide⟩

/-- C9 amended: an absent status is stored as `"online"` by both handlers,
for a `presence` frame and for every entry of a `participants` snapshot
(index.tsx additionally maps a falsy empty-string status to `"online"`,
part_001 stores it unchanged). -/
theorem claim_C9_absent_status_defaults_online
    (st : Client.State) (vst : Variant.VState) (u ls : String) (oid : Option String)
    (p : CC.RawPart) :
    ((Client.handleIncoming st (CC.Frame.presence u none ls oid)).participants
        = Client.presenceUpsert st.participants ⟨u, "online", ls, oid⟩)
    ∧ ((Variant.onMessage vst (CC.Frame.presence u none ls oid)).participants
        = Variant.vPresenceUpsert vst.participants ⟨u, some (oid.getD u), "online", ls⟩)
    ∧ ((Client.handleIncoming st (CC.Frame.presence u (some "") ls oid)).participants
        = Client.presenceUpsert st.participants ⟨u, "online", ls, oid⟩)
    ∧ (p.status = none →
        Client.normalizePart p = ⟨p.user, "online", p.lastSeen, p.id⟩
        ∧ Variant.vNormalizePart p = ⟨p.user, p.id, "online", p.lastSeen⟩) := by
  refine ⟨rfl, rfl, rfl, ?_⟩
  intro h
  constructor
  · unfold Client.normalizePart
    rw [h]
    rfl
  · unfold Variant.vNormalizePart
    rw [h]
    rfl

/-- Witness for C9 (amended): a statusless presence frame and a statusless
snapshot entry both produce status `"online"`. -/
theorem claim_C9_witness :
    ((Client.handleIncoming ⟨[], []⟩ (CC.Frame.presence "bob" none "t1" none)).participants
        = Client.presenceUpsert [] ⟨"bob", "online", "t1", none⟩)
    ∧ (Client.normalizePart ⟨"bob", none, "t1", none⟩ = ⟨"bob", "online", "t1", none⟩
        ∧ Variant.vNormalizePart ⟨"bob", none, "t1", none⟩ = ⟨"bob", none, "online", "t1"⟩) :=
  ⟨(claim_C9_absent_status_defaults_online ⟨[], []⟩ ⟨[], []⟩ "bob" "t1" none
      ⟨"bob", none, "t1", none⟩).1,
   (claim_C9_absent_status_defaults_online ⟨[], []⟩ ⟨[], []⟩ "bob" "t1" none
      ⟨"bob", none, "t1", none⟩).2.2.2 rfl⟩

/-- C10: an `update` frame whose id matches no stored message leaves the
state of index.tsx entirely unchanged — in particular nothing is
appended. -/
theorem claim_C10_unmatched_update_is_noop
    (st : Client.State) (id c u r : String)
    (h : id ∉ Client.msgIds st.messages) :
    Client.handleIncoming st (CC.Frame.update id c u r) = st := by
  show ({ st with messages := Client.updateMessage st.messages ⟨id, c, u, r⟩ } : Client.State) = st
  have hm : Client.updateMessage st.messages ⟨id, c, u, r⟩ = st.messages := by
    unfold Client.updateMessage
    have : ∀ x ∈ st.messages,
        (if (x.id == (⟨id, c, u, r⟩ : Client.ChatMessage).id) = true
          then (⟨id, c, u, r⟩ : Client.ChatMessage) else x) = x := by
      intro x hx
      have hne : ¬ x.id = id := fun he => h (List.mem_map.mpr ⟨x, hx, he⟩)
      simp [hne]
    rw [List.map_congr_left this, List.map_id']
  rw [hm]

/-- Witness for C10: an update for the unknown id `"zz"` changes nothing. -/
theorem claim_C10_witness :
    Client.handleIncoming ⟨[⟨"m1", "hi", "u", "user"⟩], []⟩
        (CC.Frame.update "zz" "new" "v" "user")
      = ⟨[⟨"m1", "hi", "u", "user"⟩], []⟩ :=
  claim_C10_unmatched_update_is_noop ⟨[⟨"m1", "hi", "u", "user"⟩], []⟩
    "zz" "new" "v" "user" (by decide)
